import Mathlib

/-!
Verification of the position-aggregation engine of the
binance-futures-trade-aggregation-pipeline repository
(`src/aggregator.py`), against its natural-language specification.

Shallow embedding conventions:
* Python floats are modelled as exact rationals (`ℚ`); the spec's claims are
  about exact accounting identities, signs and thresholds, not about binary
  rounding, so the arithmetic structure of the code is kept verbatim.
* `pandas` timestamps are modelled as an integer number of seconds (`Int`);
  only their total order and differences matter to the code.
* The mutable per-key dictionary of live position states (a Python `dict`)
  is modelled as an insertion-ordered association list, with
  insert-or-replace-in-place / delete semantics matching `dict`.
* A `pandas` DataFrame holds rows but *columns exist only if some row (or an
  explicit assignment) created them*; `sort_values` on a missing column
  raises `KeyError`.  The final assembly step of `aggregate_trades_to_positions`
  (lines 190-199) is therefore modelled in `Except`, and the `status` column
  is an `Option String` field which is `none` when the code never created the
  column.
-/

/- Batteries marks the `Rat` arithmetic operations `@[irreducible]`, which
blocks `decide`/`rfl` evaluation of the embedding on concrete inputs; restore
the definitional behaviour (the kernel re-checks every proof anyway). -/
set_option allowUnsafeReducibility true in
attribute [semireducible] Rat.add Rat.mul Rat.sub Rat.inv

namespace BinanceAgg

/-- One execution report ("fill"), after the numeric/temporal normalization of
`aggregate_trades_to_positions` lines 56-58 (all numeric columns coerced).
`positionSide` is present as a column (line 61 sorts by it, so the frame must
have it). -/
structure Fill where
  symbol : String
  positionSide : String
  side : String
  qty : ℚ
  price : ℚ
  commission : ℚ
  realizedPnl : ℚ
  time : Int
  id : Int
  deriving DecidableEq, Repr

/-- A raw fill before normalization: a numeric field is `none` when the raw
value is missing or unparseable (`pd.to_numeric(..., errors="coerce")`
produces NaN there). -/
structure RawFill where
  symbol : String
  positionSide : String
  side : String
  qty : Option ℚ
  price : Option ℚ
  commission : Option ℚ
  realizedPnl : Option ℚ
  time : Int
  id : Int
  deriving DecidableEq, Repr

/-- Lines 57-58: `pd.to_numeric(errors="coerce").fillna(0.0)` — an
unparseable numeric field degrades to `0.0`. -/
def normalize_fill (r : RawFill) : Fill :=
  { symbol := r.symbol
    positionSide := r.positionSide
    side := r.side
    qty := r.qty.getD 0
    price := r.price.getD 0
    commission := r.commission.getD 0
    realizedPnl := r.realizedPnl.getD 0
    time := r.time
    id := r.id }

/-- `config.MIN_QTY_THRESHOLD = 1e-12`. -/
def MIN_QTY_THRESHOLD : ℚ := 1 / 10 ^ 12

/-- `config.POSITION_SIDE_DEFAULT = 'BOTH'`. -/
def POSITION_SIDE_DEFAULT : String := "BOTH"

/-- `_signed_qty` (aggregator.py lines 15-37).  The `positionSide` argument is
`Option String` to model `row.get("positionSide", config.POSITION_SIDE_DEFAULT)`:
a missing key yields the default. -/
def signed_qty (qty : ℚ) (side : String) (positionSide : Option String) : ℚ :=
  let ps := positionSide.getD POSITION_SIDE_DEFAULT
  if ps = "LONG" then (if side = "BUY" then qty else -qty)
  else if ps = "SHORT" then (if side = "SELL" then qty else -qty)
  else (if side = "BUY" then qty else -qty)

/-- The live accumulator of one position, i.e. the Python dict created by
`start_state` (lines 66-81).  `closeTime = none` models `pd.NaT`. -/
structure PState where
  symbol : String
  positionSide : String
  openTime : Int
  closeTime : Option Int
  direction : String
  qtyOpened : ℚ
  entryNotional : ℚ
  maxAbsQty : ℚ
  fills : Nat
  commission : ℚ
  realizedPnl : ℚ
  netQty : ℚ
  deriving DecidableEq, Repr

/-- One output row.  `status`/`netQty` are `Option`s because the corresponding
DataFrame columns exist only on some code paths (lines 185-186, 193-194). -/
structure PRecord where
  symbol : String
  positionSide : String
  direction : String
  openTime : Int
  closeTime : Option Int
  durationMin : Option ℚ
  maxPositionQty : ℚ
  entryQty : ℚ
  entryVwap : ℚ
  realizedPnl : ℚ
  commission : ℚ
  netPnlAfterFees : ℚ
  fills : Nat
  status : Option String
  netQty : Option ℚ
  deriving DecidableEq, Repr

/-- The key of the `state` dictionary: `(row["symbol"], row["positionSide"])`
(line 110). -/
abbrev Key := String × String

/-- The `state` dictionary, as an insertion-ordered association list. -/
abbrev SMap := List (Key × PState)

/-- Python `state.get`-style lookup. -/
def dlookup (m : SMap) (k : Key) : Option PState :=
  match m with
  | [] => none
  | (k', v) :: t => if k' = k then some v else dlookup t k

/-- Python `state[key] = v`: replace in place if present, else append at the
end (dict insertion order). -/
def dinsert (m : SMap) (k : Key) (v : PState) : SMap :=
  match m with
  | [] => [(k, v)]
  | (k', v') :: t => if k' = k then (k, v) :: t else (k', v') :: dinsert t k v

/-- Python `del state[key]`. -/
def derase (m : SMap) (k : Key) : SMap :=
  match m with
  | [] => []
  | (k', v') :: t => if k' = k then derase t k else (k', v') :: derase t k

/-- `start_state` (lines 66-81). -/
def start_state (f : Fill) (signed_q : ℚ) : PState :=
  { symbol := f.symbol
    positionSide := f.positionSide
    openTime := f.time
    closeTime := none
    direction := if signed_q > 0 then "LONG" else "SHORT"
    qtyOpened := 0
    entryNotional := 0
    maxAbsQty := 0
    fills := 0
    commission := 0
    realizedPnl := 0
    netQty := 0 }

/-- The record appended by `flush_if_closed` (lines 87-105).  The `status` and
`net_qty` columns are not part of this row. -/
def closed_record (st : PState) : PRecord :=
  let entry_qty := |st.qtyOpened|
  let entry_vwap := if entry_qty > 0 then st.entryNotional / entry_qty else 0
  { symbol := st.symbol
    positionSide := st.positionSide
    direction := st.direction
    openTime := st.openTime
    closeTime := st.closeTime
    durationMin := st.closeTime.map (fun ct => ((ct - st.openTime : Int) : ℚ) / 60)
    maxPositionQty := st.maxAbsQty
    entryQty := entry_qty
    entryVwap := entry_vwap
    realizedPnl := st.realizedPnl
    commission := st.commission
    netPnlAfterFees := st.realizedPnl - st.commission
    fills := st.fills
    status := none
    netQty := none }

/-- `flush_if_closed` (lines 83-106): if the state of `k` is flat, emit its
record and delete the key.  (The Python function is only ever called with
`k` present in the dictionary.) -/
def flush_if_closed (m : SMap) (acc : List PRecord) (k : Key) : SMap × List PRecord :=
  match dlookup m k with
  | none => (m, acc)
  | some st =>
    if |st.netQty| < MIN_QTY_THRESHOLD then
      (derase m k, acc ++ [closed_record st])
    else (m, acc)

def fill_key (f : Fill) : Key := (f.symbol, f.positionSide)

/-- `_signed_qty(row)` as used in the loop (line 111): the row always carries
a `positionSide` value. -/
def signed_of (f : Fill) : ℚ := signed_qty f.qty f.side (some f.positionSide)

/-- Lines 116-125: create a fresh state when the key is absent, and restart
when the live state is flat.  (A freshly created state has `netQty = 0`, so
the flat-restart immediately after creation rebuilds the identical state.) -/
def live_state (m : SMap) (f : Fill) : PState :=
  match dlookup m (fill_key f) with
  | none => start_state f (signed_of f)
  | some st =>
    if |st.netQty| < MIN_QTY_THRESHOLD then start_state f (signed_of f) else st

/-- `opening_sign` (line 135). -/
def opening_sign (st : PState) : ℚ := if st.direction = "LONG" then 1 else -1

/-- Lines 127-141: the in-place mutations applied to the live state by one
fill, before flip/close detection. -/
def updated_state (st : PState) (f : Fill) : PState :=
  let signed_q := signed_of f
  let st1 : PState :=
    { st with
      fills := st.fills + 1
      commission := st.commission + f.commission
      realizedPnl := st.realizedPnl + f.realizedPnl }
  let new_net := st1.netQty + signed_q
  let st2 : PState :=
    if opening_sign st1 * signed_q > 0 then
      { st1 with
        qtyOpened := st1.qtyOpened + signed_q
        entryNotional := st1.entryNotional + f.price * |signed_q| }
    else st1
  { st2 with netQty := new_net, maxAbsQty := max st2.maxAbsQty |new_net| }

/-- Lines 151-159: the state freshly opened by a flip, carrying the leftover
quantity and none of the flip fill's fees. -/
def flip_state (f : Fill) (leftover : ℚ) : PState :=
  { start_state f leftover with
    fills := 1
    commission := 0
    realizedPnl := 0
    netQty := leftover
    qtyOpened := leftover
    entryNotional := f.price * |leftover|
    maxAbsQty := |leftover| }

/-- One iteration of the loop at lines 109-164. -/
def process_fill (ms : SMap × List PRecord) (f : Fill) : SMap × List PRecord :=
  let m := ms.1
  let acc := ms.2
  let k := fill_key f
  let st0 := live_state m f
  let prev_net := st0.netQty
  let st1 := updated_state st0 f
  let new_net := st1.netQty
  let m1 := dinsert m k st1
  if (prev_net > 0 ∧ new_net < 0) ∨ (prev_net < 0 ∧ new_net > 0) then
    -- lines 144-159: close the current state at this fill's time and restart
    -- with the leftover quantity
    let m2 := dinsert m1 k { st1 with closeTime := some f.time, netQty := 0 }
    let fa := flush_if_closed m2 acc k
    let m3 := dinsert fa.1 k (flip_state f new_net)
    -- lines 162-164 after a flip: the Python variable `st` still references
    -- the dict of the closed state, whose `net_qty` was zeroed at line 146, so
    -- the flatness test passes and the flush always re-runs on the fresh state
    flush_if_closed m3 fa.2 k
  else
    if |new_net| < MIN_QTY_THRESHOLD then
      -- lines 161-164: normal close
      let m2 := dinsert m1 k { st1 with closeTime := some f.time }
      flush_if_closed m2 acc k
    else
      (m1, acc)

/-- The record built for a still-live state at end of stream
(lines 168-187). -/
def open_record (st : PState) : PRecord :=
  let entry_qty := |st.qtyOpened|
  let entry_vwap := if entry_qty > 0 then st.entryNotional / entry_qty else 0
  { symbol := st.symbol
    positionSide := st.positionSide
    direction := st.direction
    openTime := st.openTime
    closeTime := none
    durationMin := none
    maxPositionQty := st.maxAbsQty
    entryQty := entry_qty
    entryVwap := entry_vwap
    realizedPnl := st.realizedPnl
    commission := st.commission
    netPnlAfterFees := st.realizedPnl - st.commission
    fills := st.fills
    status := some "OPEN"
    netQty := some st.netQty }

/-- Lines 167-187: one open record per remaining live state, in dictionary
order. -/
def open_records (m : SMap) : List PRecord := m.map (fun p => open_record p.2)

/-- Line 194: `positions_df["status"] = "CLOSED"`. -/
def set_status_closed (r : PRecord) : PRecord := { r with status := some "CLOSED" }

/-- The sort key of line 61: `(symbol, positionSide, time, id)`,
lexicographically.  Strings are compared through their character lists,
which is exactly code-point-lexicographic string order. -/
def sort_key (f : Fill) : Lex (List Char × Lex (List Char × Lex (Int × Int))) :=
  toLex (f.symbol.data, toLex (f.positionSide.data, toLex (f.time, f.id)))

/-- The row order established by `df.sort_values` at line 61. -/
def fillLE (a b : Fill) : Prop := sort_key a ≤ sort_key b

instance : DecidableRel fillLE :=
  fun a b => inferInstanceAs (Decidable (sort_key a ≤ sort_key b))

instance : IsTotal Fill fillLE := ⟨fun a b => le_total (sort_key a) (sort_key b)⟩

instance : IsTrans Fill fillLE := ⟨fun _ _ _ h1 h2 => le_trans h1 h2⟩

/-- The final record order of line 197: ascending `open_time`. -/
def recLE (a b : PRecord) : Prop := a.openTime ≤ b.openTime

instance : DecidableRel recLE :=
  fun a b => inferInstanceAs (Decidable (a.openTime ≤ b.openTime))

instance : IsTotal PRecord recLE := ⟨fun a b => Int.le_total a.openTime b.openTime⟩

instance : IsTrans PRecord recLE := ⟨fun _ _ _ h1 h2 => le_trans h1 h2⟩

/-- Line 61: normalize the processing order. -/
def sorted_fills (l : List Fill) : List Fill := List.insertionSort fillLE l

/-- Lines 190-197: build the output frame.  `pd.DataFrame([])` has no columns
at all, so when both record lists are empty the final
`sort_values(["open_time"])` raises `KeyError`; and the `status` column is
created (line 194) only when at least one open position exists
(line 193). -/
def combine_positions (closed openR : List PRecord) : Except String (List PRecord) :=
  match closed, openR with
  | [], [] => Except.error "KeyError: open_time"
  | _, [] => Except.ok (List.insertionSort recLE closed)
  | _, _ => Except.ok (List.insertionSort recLE (closed.map set_status_closed ++ openR))

/-- `aggregate_trades_to_positions` (lines 40-199), on already-normalized
fills. -/
def aggregate_trades_to_positions (l : List Fill) : Except String (List PRecord) :=
  let df := sorted_fills l
  let fs := df.foldl process_fill ([], [])
  combine_positions fs.2 (open_records fs.1)

/-- The full pipeline entry on raw rows: numeric coercion, then
aggregation. -/
def aggregate_raw (l : List RawFill) : Except String (List PRecord) :=
  aggregate_trades_to_positions (l.map normalize_fill)

/-! ### Basic facts about the state dictionary and the flush -/

theorem MIN_QTY_THRESHOLD_pos : 0 < MIN_QTY_THRESHOLD := by
  norm_num [MIN_QTY_THRESHOLD]

theorem dlookup_dinsert_self (m : SMap) (k : Key) (v : PState) :
    dlookup (dinsert m k v) k = some v := by
  induction m with
  | nil => simp [dinsert, dlookup]
  | cons p t ih =>
    by_cases h : p.1 = k
    · simp [dinsert, dlookup, h]
    · simp [dinsert, dlookup, h, ih]

theorem dlookup_derase_self (m : SMap) (k : Key) :
    dlookup (derase m k) k = none := by
  induction m with
  | nil => simp [derase, dlookup]
  | cons p t ih =>
    by_cases h : p.1 = k
    · simp [derase, h, ih]
    · simp [derase, dlookup, h, ih]

theorem dlookup_ne_none_of_mem {m : SMap} {k : Key} {v : PState}
    (h : dlookup m k = some v) : m ≠ [] := by
  intro hnil
  subst hnil
  simp [dlookup] at h

theorem flush_eq_of_flat {m : SMap} {k : Key} {st : PState} (acc : List PRecord)
    (hl : dlookup m k = some st) (hf : |st.netQty| < MIN_QTY_THRESHOLD) :
    flush_if_closed m acc k = (derase m k, acc ++ [closed_record st]) := by
  unfold flush_if_closed
  rw [hl]
  simp [hf]

theorem flush_eq_of_live {m : SMap} {k : Key} {st : PState} (acc : List PRecord)
    (hl : dlookup m k = some st) (hf : ¬ |st.netQty| < MIN_QTY_THRESHOLD) :
    flush_if_closed m acc k = (m, acc) := by
  unfold flush_if_closed
  rw [hl]
  simp [hf]

theorem flush_snd_append (m : SMap) (acc : List PRecord) (k : Key) :
    ∃ e, (flush_if_closed m acc k).2 = acc ++ e := by
  unfold flush_if_closed
  cases h : dlookup m k with
  | none => exact ⟨[], by simp⟩
  | some st =>
    by_cases hf : |st.netQty| < MIN_QTY_THRESHOLD
    · exact ⟨[closed_record st], by simp [hf]⟩
    · exact ⟨[], by simp [hf]⟩

theorem mem_flush_snd {m : SMap} {acc : List PRecord} {k : Key} {r : PRecord}
    (h : r ∈ (flush_if_closed m acc k).2) :
    r ∈ acc ∨ ∃ st, r = closed_record st := by
  unfold flush_if_closed at h
  cases hl : dlookup m k with
  | none => rw [hl] at h; exact Or.inl h
  | some st =>
    rw [hl] at h
    by_cases hf : |st.netQty| < MIN_QTY_THRESHOLD
    · simp only [if_pos hf, List.mem_append, List.mem_singleton] at h
      rcases h with h | h
      · exact Or.inl h
      · exact Or.inr ⟨st, h⟩
    · simp only [if_neg hf] at h
      exact Or.inl h

/-! ### Field computations for `updated_state` -/

theorem updated_state_netQty (st : PState) (f : Fill) :
    (updated_state st f).netQty = st.netQty + signed_of f := by
  simp only [updated_state]

theorem updated_state_commission (st : PState) (f : Fill) :
    (updated_state st f).commission = st.commission + f.commission := by
  simp only [updated_state]
  split <;> rfl

theorem updated_state_realizedPnl (st : PState) (f : Fill) :
    (updated_state st f).realizedPnl = st.realizedPnl + f.realizedPnl := by
  simp only [updated_state]
  split <;> rfl

theorem updated_state_fills (st : PState) (f : Fill) :
    (updated_state st f).fills = st.fills + 1 := by
  simp only [updated_state]
  split <;> rfl

theorem updated_state_direction (st : PState) (f : Fill) :
    (updated_state st f).direction = st.direction := by
  simp only [updated_state]
  split <;> rfl

theorem updated_state_closeTime (st : PState) (f : Fill) :
    (updated_state st f).closeTime = st.closeTime := by
  simp only [updated_state]
  split <;> rfl

theorem updated_state_openTime (st : PState) (f : Fill) :
    (updated_state st f).openTime = st.openTime := by
  simp only [updated_state]
  split <;> rfl

theorem updated_state_entry_of_not_opening {st : PState} {f : Fill}
    (h : ¬ opening_sign st * signed_of f > 0) :
    (updated_state st f).qtyOpened = st.qtyOpened ∧
      (updated_state st f).entryNotional = st.entryNotional := by
  have h' : ¬ opening_sign { st with
      fills := st.fills + 1
      commission := st.commission + f.commission
      realizedPnl := st.realizedPnl + f.realizedPnl } * signed_of f > 0 := h
  simp only [updated_state]
  rw [if_neg h']
  exact ⟨rfl, rfl⟩

/-! ### Claim theorems -/

/-- C1: a fill whose signed delta carries the live state's `netQty` from
strictly positive to strictly negative (or vice versa) closes the current
state at that fill's time, emitting a record whose commission/realizedPnl
sums include the flip fill's entire commission and realized P&L, and
immediately opens a new state for the same key with `openTime` the fill's
time, `qtyOpened` the leftover `newNet`, `entryNotional = price * |newNet|`,
`fillCount = 1` and zero commission/realizedPnl sums: the flip fill's fees
and realized P&L live only in the closing leg.  (The hypothesis
`MIN_QTY_THRESHOLD ≤ |newNet|` excludes the degenerate flip whose leftover is
itself below the flatness threshold, in which case the fresh state is
additionally flushed within the same step.) -/
theorem flip_conservation
    (m : SMap) (acc : List PRecord) (f : Fill) (st : PState)
    (hlook : dlookup m (fill_key f) = some st)
    (hlive : MIN_QTY_THRESHOLD ≤ |st.netQty|)
    (hflip : (st.netQty > 0 ∧ st.netQty + signed_of f < 0) ∨
             (st.netQty < 0 ∧ st.netQty + signed_of f > 0))
    (hleft : MIN_QTY_THRESHOLD ≤ |st.netQty + signed_of f|) :
    ∃ rec st',
      (process_fill (m, acc) f).2 = acc ++ [rec] ∧
      rec.closeTime = some f.time ∧
      rec.commission = st.commission + f.commission ∧
      rec.realizedPnl = st.realizedPnl + f.realizedPnl ∧
      dlookup (process_fill (m, acc) f).1 (fill_key f) = some st' ∧
      st'.openTime = f.time ∧
      st'.qtyOpened = st.netQty + signed_of f ∧
      st'.entryNotional = f.price * |st.netQty + signed_of f| ∧
      st'.fills = 1 ∧
      st'.commission = 0 ∧
      st'.realizedPnl = 0 ∧
      st'.netQty = st.netQty + signed_of f := by
  have hnotflat : ¬ |st.netQty| < MIN_QTY_THRESHOLD := not_lt.mpr hlive
  have hls : live_state m f = st := by
    unfold live_state
    rw [hlook]
    simp [hnotflat]
  have hnew : (updated_state st f).netQty = st.netQty + signed_of f :=
    updated_state_netQty st f
  have hflip' : ((live_state m f).netQty > 0 ∧
        (updated_state (live_state m f) f).netQty < 0) ∨
      ((live_state m f).netQty < 0 ∧
        (updated_state (live_state m f) f).netQty > 0) := by
    rw [hls, hnew]
    exact hflip
  have hcstflat :
      |(({ updated_state st f with closeTime := some f.time, netQty := 0 } : PState)).netQty|
        < MIN_QTY_THRESHOLD := by
    simpa using MIN_QTY_THRESHOLD_pos
  have hmain : process_fill (m, acc) f =
      (dinsert
        (derase
          (dinsert (dinsert m (fill_key f) (updated_state st f)) (fill_key f)
            { updated_state st f with closeTime := some f.time, netQty := 0 })
          (fill_key f))
        (fill_key f) (flip_state f (st.netQty + signed_of f)),
       acc ++ [closed_record
          { updated_state st f with closeTime := some f.time, netQty := 0 }]) := by
    simp only [process_fill]
    rw [if_pos hflip', hls, hnew]
    rw [flush_eq_of_flat acc (dlookup_dinsert_self _ _ _) hcstflat]
    exact flush_eq_of_live _ (dlookup_dinsert_self _ _ _)
      (not_lt.mpr (by simpa [flip_state, start_state] using hleft))
  refine ⟨closed_record { updated_state st f with closeTime := some f.time, netQty := 0 },
      flip_state f (st.netQty + signed_of f), ?_, rfl, ?_, ?_, ?_, rfl, rfl, rfl, rfl, rfl, rfl,
      rfl⟩
  · rw [hmain]
  · simpa [closed_record] using updated_state_commission st f
  · simpa [closed_record] using updated_state_realizedPnl st f
  · rw [hmain]
    exact dlookup_dinsert_self _ _ _

/-- The live long 2-unit state of the `flip_conservation` witness. -/
def c1wit_state : PState :=
  { symbol := "BTCUSDT", positionSide := "BOTH", openTime := 0,
    closeTime := none, direction := "LONG", qtyOpened := 2,
    entryNotional := 200, maxAbsQty := 2, fills := 1,
    commission := 1/10, realizedPnl := 0, netQty := 2 }

/-- The 5-unit sell that flips the witness position. -/
def c1wit_fill : Fill := ⟨"BTCUSDT", "BOTH", "SELL", 5, 110, 3/10, 20, 60, 2⟩

/-- The state dictionary of the `flip_conservation` witness. -/
def c1wit_map : SMap := [(("BTCUSDT", "BOTH"), c1wit_state)]

/-- Witness for `flip_conservation` at a concrete flip: a long 2-unit
position hit by a 5-unit sell, leaving a 3-unit short leftover. -/
theorem flip_conservation_witness :
    ∃ rec st',
      (process_fill (c1wit_map, []) c1wit_fill).2 = [] ++ [rec] ∧
      rec.closeTime = some c1wit_fill.time ∧
      rec.commission = c1wit_state.commission + c1wit_fill.commission ∧
      rec.realizedPnl = c1wit_state.realizedPnl + c1wit_fill.realizedPnl ∧
      dlookup (process_fill (c1wit_map, []) c1wit_fill).1 (fill_key c1wit_fill) = some st' ∧
      st'.openTime = c1wit_fill.time ∧
      st'.qtyOpened = c1wit_state.netQty + signed_of c1wit_fill ∧
      st'.entryNotional = c1wit_fill.price * |c1wit_state.netQty + signed_of c1wit_fill| ∧
      st'.fills = 1 ∧
      st'.commission = 0 ∧
      st'.realizedPnl = 0 ∧
      st'.netQty = c1wit_state.netQty + signed_of c1wit_fill :=
  flip_conservation c1wit_map [] c1wit_fill c1wit_state
    (by decide) (by decide) (by decide) (by decide)

/-- C2: the signed-quantity resolver maps BUY/SELL to a signed delta per
position mode: `LONG` gives `+qty` on BUY, `SHORT` gives `+qty` on SELL, and
`BOTH`, a missing value, or any unrecognized value use net-mode (BUY positive)
accounting. -/
theorem signed_qty_spec (q : ℚ) (side : String) (ps : Option String) :
    signed_qty q side (some "LONG") = (if side = "BUY" then q else -q) ∧
    signed_qty q side (some "SHORT") = (if side = "SELL" then q else -q) ∧
    signed_qty q side (some "BOTH") = (if side = "BUY" then q else -q) ∧
    (ps ≠ some "LONG" → ps ≠ some "SHORT" →
      signed_qty q side ps = (if side = "BUY" then q else -q)) := by
  refine ⟨rfl, rfl, rfl, ?_⟩
  intro h1 h2
  cases ps with
  | none => rfl
  | some s =>
    have hs1 : s ≠ "LONG" := fun h => h1 (by rw [h])
    have hs2 : s ≠ "SHORT" := fun h => h2 (by rw [h])
    simp only [signed_qty, Option.getD]
    rw [if_neg hs1, if_neg hs2]

/-- Witness for `signed_qty_spec`: an unrecognized mode string falls back to
net-mode accounting. -/
theorem signed_qty_spec_witness :
    signed_qty 3 "SELL" (some "WEIRD") = (if "SELL" = "BUY" then (3 : ℚ) else -3) :=
  (signed_qty_spec 3 "SELL" (some "WEIRD")).2.2.2 (by decide) (by decide)

/-- C4: a fill whose signed delta opposes the live state's opening direction
never touches `qtyOpened`/`entryNotional` (here stated for a reducing fill
that neither flips nor closes the state, so that the state survives the
step), and the emitter computes `entryQty = |qtyOpened|` and
`entryVwap = entryNotional / entryQty` when `entryQty > 0`, else `0`, for
both closed and open records. -/
theorem reducing_fill_preserves_entry
    (m : SMap) (acc : List PRecord) (f : Fill) (st : PState)
    (hlook : dlookup m (fill_key f) = some st)
    (hlive : MIN_QTY_THRESHOLD ≤ |st.netQty|)
    (hred : opening_sign st * signed_of f < 0)
    (hnoflip : ¬ ((st.netQty > 0 ∧ st.netQty + signed_of f < 0) ∨
                  (st.netQty < 0 ∧ st.netQty + signed_of f > 0)))
    (hnoclose : MIN_QTY_THRESHOLD ≤ |st.netQty + signed_of f|) :
    (∃ st', dlookup (process_fill (m, acc) f).1 (fill_key f) = some st' ∧
        st'.qtyOpened = st.qtyOpened ∧
        st'.entryNotional = st.entryNotional ∧
        (process_fill (m, acc) f).2 = acc) ∧
    (∀ s : PState,
      (closed_record s).entryQty = |s.qtyOpened| ∧
      (closed_record s).entryVwap =
        (if (closed_record s).entryQty > 0
         then s.entryNotional / (closed_record s).entryQty else 0) ∧
      (open_record s).entryQty = |s.qtyOpened| ∧
      (open_record s).entryVwap =
        (if (open_record s).entryQty > 0
         then s.entryNotional / (open_record s).entryQty else 0)) := by
  have hnotflat : ¬ |st.netQty| < MIN_QTY_THRESHOLD := not_lt.mpr hlive
  have hls : live_state m f = st := by
    unfold live_state
    rw [hlook]
    simp [hnotflat]
  have hnew : (updated_state st f).netQty = st.netQty + signed_of f :=
    updated_state_netQty st f
  have hnoflip' : ¬ (((live_state m f).netQty > 0 ∧
        (updated_state (live_state m f) f).netQty < 0) ∨
      ((live_state m f).netQty < 0 ∧
        (updated_state (live_state m f) f).netQty > 0)) := by
    rw [hls, hnew]
    exact hnoflip
  have hnocl' : ¬ |(updated_state (live_state m f) f).netQty| < MIN_QTY_THRESHOLD := by
    rw [hls, hnew]
    exact not_lt.mpr hnoclose
  have hmain : process_fill (m, acc) f =
      (dinsert m (fill_key f) (updated_state st f), acc) := by
    simp only [process_fill]
    rw [if_neg hnoflip', if_neg hnocl', hls]
  have hentry := @updated_state_entry_of_not_opening st f (lt_asymm hred)
  refine ⟨⟨updated_state st f, ?_, hentry.1, hentry.2, ?_⟩, fun s => ⟨rfl, rfl, rfl, rfl⟩⟩
  · rw [hmain]
    exact dlookup_dinsert_self _ _ _
  · rw [hmain]

/-- Witness for `reducing_fill_preserves_entry`: a 1-unit sell reducing a
live long 2-unit position. -/
theorem reducing_fill_preserves_entry_witness :
    (∃ st', dlookup (process_fill (c1wit_map, []) ⟨"BTCUSDT", "BOTH", "SELL", 1, 120, 0, 5, 30, 7⟩).1
          (fill_key ⟨"BTCUSDT", "BOTH", "SELL", 1, 120, 0, 5, 30, 7⟩) = some st' ∧
        st'.qtyOpened = c1wit_state.qtyOpened ∧
        st'.entryNotional = c1wit_state.entryNotional ∧
        (process_fill (c1wit_map, []) ⟨"BTCUSDT", "BOTH", "SELL", 1, 120, 0, 5, 30, 7⟩).2 = []) ∧
    (∀ s : PState,
      (closed_record s).entryQty = |s.qtyOpened| ∧
      (closed_record s).entryVwap =
        (if (closed_record s).entryQty > 0
         then s.entryNotional / (closed_record s).entryQty else 0) ∧
      (open_record s).entryQty = |s.qtyOpened| ∧
      (open_record s).entryVwap =
        (if (open_record s).entryQty > 0
         then s.entryNotional / (open_record s).entryQty else 0)) :=
  reducing_fill_preserves_entry c1wit_map [] ⟨"BTCUSDT", "BOTH", "SELL", 1, 120, 0, 5, 30, 7⟩
    c1wit_state (by decide) (by decide) (by decide) (by decide) (by decide)

/-- C5 (code bug in the source): on the empty input collection the final
`positions_df.sort_values(["open_time"])` at line 197 operates on
`pd.DataFrame([])`, which has no `open_time` column, so the aggregator raises
`KeyError` instead of returning an empty output. -/
theorem aggregate_empty_raises :
    aggregate_trades_to_positions [] = Except.error "KeyError: open_time" := rfl

theorem signed_of_eq_zero {f : Fill} (hq : f.qty = 0) : signed_of f = 0 := by
  simp [signed_of, signed_qty, hq]

/-- C10: a `qty = 0` fill (e.g. one whose unparseable quantity was coerced to
`0.0`) arriving on an absent or flat key creates and immediately closes a
degenerate position: one record flushed within the step, with
`direction = "SHORT"` (a zero delta is not strictly positive), zero
`entryQty`/`entryVwap`, `openTime = closeTime = fill.time`, `fillCount = 1`,
and exactly that fill's commission and realized P&L as the sums; the key is
left absent. -/
theorem zero_qty_degenerate
    (m : SMap) (acc : List PRecord) (f : Fill)
    (habs : dlookup m (fill_key f) = none ∨
      ∃ st, dlookup m (fill_key f) = some st ∧ |st.netQty| < MIN_QTY_THRESHOLD)
    (hq : f.qty = 0) :
    (∃ rec, (process_fill (m, acc) f).2 = acc ++ [rec] ∧
      dlookup (process_fill (m, acc) f).1 (fill_key f) = none ∧
      rec.direction = "SHORT" ∧
      rec.entryQty = 0 ∧
      rec.entryVwap = 0 ∧
      rec.openTime = f.time ∧
      rec.closeTime = some f.time ∧
      rec.fills = 1 ∧
      rec.commission = f.commission ∧
      rec.realizedPnl = f.realizedPnl) ∧
    (∀ r : RawFill, r.qty = none → (normalize_fill r).qty = 0) := by
  have hsz : signed_of f = 0 := signed_of_eq_zero hq
  have hls : live_state m f = start_state f 0 := by
    rcases habs with h | ⟨st, h, hflat⟩
    · simp [live_state, h, hsz]
    · simp [live_state, h, hflat, hsz]
  have hupd : updated_state (start_state f 0) f =
      { symbol := f.symbol, positionSide := f.positionSide, openTime := f.time,
        closeTime := none, direction := "SHORT", qtyOpened := 0,
        entryNotional := 0, maxAbsQty := 0, fills := 1,
        commission := f.commission, realizedPnl := f.realizedPnl, netQty := 0 } := by
    simp [updated_state, start_state, opening_sign, hsz]
  have hnoflip' : ¬ (((live_state m f).netQty > 0 ∧
        (updated_state (live_state m f) f).netQty < 0) ∨
      ((live_state m f).netQty < 0 ∧
        (updated_state (live_state m f) f).netQty > 0)) := by
    rw [hls, hupd]
    simp [start_state]
  have hflat' : |(updated_state (live_state m f) f).netQty| < MIN_QTY_THRESHOLD := by
    rw [hls, hupd]
    simpa using MIN_QTY_THRESHOLD_pos
  have hmain : process_fill (m, acc) f =
      (derase
        (dinsert (dinsert m (fill_key f) (updated_state (start_state f 0) f)) (fill_key f)
          { updated_state (start_state f 0) f with closeTime := some f.time })
        (fill_key f),
       acc ++ [closed_record
          { updated_state (start_state f 0) f with closeTime := some f.time }]) := by
    simp only [process_fill]
    rw [if_neg hnoflip', if_pos hflat', hls]
    exact flush_eq_of_flat acc (dlookup_dinsert_self _ _ _)
      (by rw [hupd]; simpa using MIN_QTY_THRESHOLD_pos)
  refine ⟨⟨closed_record { updated_state (start_state f 0) f with closeTime := some f.time },
      ?_, ?_, ?_, ?_, ?_, ?_, ?_, ?_, ?_, ?_⟩, fun r hr => by simp [normalize_fill, hr]⟩
  · rw [hmain]
  · rw [hmain]
    exact dlookup_derase_self _ _
  · rw [hupd]
    rfl
  · rw [hupd]
    simp [closed_record]
  · rw [hupd]
    simp [closed_record]
  · rw [hupd]
    rfl
  · rw [hupd]
    rfl
  · rw [hupd]
    rfl
  · rw [hupd]
    simp [closed_record]
  · rw [hupd]
    simp [closed_record]

/-- Witness for `zero_qty_degenerate`: a zero-quantity buy on an empty state
dictionary. -/
theorem zero_qty_degenerate_witness :
    (∃ rec, (process_fill ([], []) ⟨"ETHUSDT", "BOTH", "BUY", 0, 50, 3, 7, 5, 9⟩).2
        = [] ++ [rec] ∧
      dlookup (process_fill ([], []) ⟨"ETHUSDT", "BOTH", "BUY", 0, 50, 3, 7, 5, 9⟩).1
        (fill_key ⟨"ETHUSDT", "BOTH", "BUY", 0, 50, 3, 7, 5, 9⟩) = none ∧
      rec.direction = "SHORT" ∧
      rec.entryQty = 0 ∧
      rec.entryVwap = 0 ∧
      rec.openTime = (5 : Int) ∧
      rec.closeTime = some (5 : Int) ∧
      rec.fills = 1 ∧
      rec.commission = 3 ∧
      rec.realizedPnl = 7) ∧
    (∀ r : RawFill, r.qty = none → (normalize_fill r).qty = 0) :=
  zero_qty_degenerate [] [] ⟨"ETHUSDT", "BOTH", "BUY", 0, 50, 3, 7, 5, 9⟩
    (Or.inl rfl) rfl

/-! ### Shape of the records reaching the output -/

theorem mem_process_fill_snd {ms : SMap × List PRecord} {f : Fill} {r : PRecord}
    (h : r ∈ (process_fill ms f).2) :
    r ∈ ms.2 ∨ ∃ st, r = closed_record st := by
  simp only [process_fill] at h
  split at h
  · rcases mem_flush_snd h with h' | hst
    · rcases mem_flush_snd h' with h'' | hst
      · exact Or.inl h''
      · exact Or.inr hst
    · exact Or.inr hst
  · split at h
    · rcases mem_flush_snd h with h' | hst
      · exact Or.inl h'
      · exact Or.inr hst
    · exact Or.inl h

theorem mem_fold_snd : ∀ (l : List Fill) (ms : SMap × List PRecord) (r : PRecord),
    r ∈ (l.foldl process_fill ms).2 → r ∈ ms.2 ∨ ∃ st, r = closed_record st := by
  intro l
  induction l with
  | nil => exact fun ms r h => Or.inl h
  | cons f t ih =>
    intro ms r h
    rcases ih (process_fill ms f) r h with h' | hst
    · exact mem_process_fill_snd h'
    · exact Or.inr hst

theorem mem_open_records {m : SMap} {r : PRecord} (h : r ∈ open_records m) :
    ∃ st, r = open_record st := by
  simp only [open_records, List.mem_map] at h
  obtain ⟨p, _, hp⟩ := h
  exact ⟨p.2, hp.symm⟩

theorem mem_of_combine {c o rs : List PRecord} {r : PRecord}
    (h : combine_positions c o = Except.ok rs) (hr : r ∈ rs) :
    r ∈ c ∨ (∃ r' ∈ c, r = set_status_closed r') ∨ r ∈ o := by
  rcases c with _ | ⟨c0, ct⟩ <;> rcases o with _ | ⟨o0, ot⟩
  · exact absurd h (by simp [combine_positions])
  · simp only [combine_positions, Except.ok.injEq] at h
    subst h
    rw [List.mem_insertionSort] at hr
    simp only [List.map_nil, List.nil_append] at hr
    exact Or.inr (Or.inr hr)
  · simp only [combine_positions, Except.ok.injEq] at h
    subst h
    rw [List.mem_insertionSort] at hr
    exact Or.inl hr
  · simp only [combine_positions, Except.ok.injEq] at h
    subst h
    rw [List.mem_insertionSort] at hr
    rcases List.mem_append.mp hr with h' | h'
    · rcases List.mem_map.mp h' with ⟨r', hr', hrr⟩
      exact Or.inr (Or.inl ⟨r', hr', hrr.symm⟩)
    · exact Or.inr (Or.inr h')

theorem mem_aggregate_shape {l : List Fill} {rs : List PRecord} {r : PRecord}
    (h : aggregate_trades_to_positions l = Except.ok rs) (hr : r ∈ rs) :
    (∃ st, r = closed_record st) ∨
    (∃ st, r = set_status_closed (closed_record st)) ∨
    (∃ st, r = open_record st) := by
  have h' : combine_positions ((sorted_fills l).foldl process_fill ([], [])).2
      (open_records ((sorted_fills l).foldl process_fill ([], [])).1) = Except.ok rs := h
  rcases mem_of_combine h' hr with hc | ⟨r', hr', hrr⟩ | ho
  · rcases mem_fold_snd _ _ _ hc with h0 | hst
    · cases h0
    · exact Or.inl hst
  · rcases mem_fold_snd _ _ _ hr' with h0 | ⟨st, hst⟩
    · cases h0
    · exact Or.inr (Or.inl ⟨st, by rw [hrr, hst]⟩)
  · exact Or.inr (Or.inr (mem_open_records ho))

/-- C3: every record emitted by the aggregator (closed during the fold or
still open at end of stream) satisfies
`netPnlAfterFees = realizedPnl − commission` exactly. -/
theorem net_pnl_after_fees_identity (l : List Fill) (rs : List PRecord)
    (h : aggregate_trades_to_positions l = Except.ok rs) :
    ∀ r ∈ rs, r.netPnlAfterFees = r.realizedPnl - r.commission := by
  intro r hr
  rcases mem_aggregate_shape h hr with ⟨st, rfl⟩ | ⟨st, rfl⟩ | ⟨st, rfl⟩ <;> rfl

/-- The single OPEN record produced by the `net_pnl_after_fees_identity`
witness input. -/
def c3wit_rec : PRecord :=
  { symbol := "BTCUSDT", positionSide := "BOTH", direction := "LONG",
    openTime := 0, closeTime := none, durationMin := none,
    maxPositionQty := 1, entryQty := 1, entryVwap := 100,
    realizedPnl := 0, commission := 1, netPnlAfterFees := 0 - 1,
    fills := 1, status := some "OPEN", netQty := some 1 }

/-- Witness for `net_pnl_after_fees_identity` on a concrete one-fill input
left open at end of stream. -/
theorem net_pnl_after_fees_identity_witness :
    c3wit_rec.netPnlAfterFees = c3wit_rec.realizedPnl - c3wit_rec.commission :=
  net_pnl_after_fees_identity [⟨"BTCUSDT", "BOTH", "BUY", 1, 100, 1, 0, 0, 1⟩]
    [c3wit_rec] rfl c3wit_rec (List.mem_singleton.mpr rfl)

/-! ### The fold never returns an error on nonempty input -/

theorem flush_snd_ne_nil {m : SMap} {a : List PRecord} {k : Key} (h : a ≠ []) :
    (flush_if_closed m a k).2 ≠ [] := by
  obtain ⟨e, he⟩ := flush_snd_append m a k
  rw [he]
  intro hc
  exact h (List.append_eq_nil.mp hc).1

theorem process_fill_live_or_emitted (ms : SMap × List PRecord) (f : Fill) :
    (process_fill ms f).2 ≠ [] ∨
      dlookup (process_fill ms f).1 (fill_key f) ≠ none := by
  simp only [process_fill]
  split
  · left
    apply flush_snd_ne_nil
    rw [flush_eq_of_flat ms.2 (dlookup_dinsert_self _ _ _)
      (by simpa using MIN_QTY_THRESHOLD_pos)]
    simp
  · split
    case isTrue hc =>
      left
      have hc' : |({ updated_state (live_state ms.1 f) f with
          closeTime := some f.time } : PState).netQty| < MIN_QTY_THRESHOLD := hc
      rw [flush_eq_of_flat ms.2 (dlookup_dinsert_self _ _ _) hc']
      simp
    case isFalse hc =>
      right
      rw [dlookup_dinsert_self]
      simp

theorem process_fill_inv (ms : SMap × List PRecord) (f : Fill) :
    (process_fill ms f).2 ≠ [] ∨ (process_fill ms f).1 ≠ [] := by
  rcases process_fill_live_or_emitted ms f with h | h
  · exact Or.inl h
  · right
    intro hnil
    rw [hnil] at h
    exact h rfl

theorem fold_inv : ∀ (l : List Fill) (ms : SMap × List PRecord),
    (ms.2 ≠ [] ∨ ms.1 ≠ []) →
    ((l.foldl process_fill ms).2 ≠ [] ∨ (l.foldl process_fill ms).1 ≠ []) := by
  intro l
  induction l with
  | nil => exact fun ms h => h
  | cons f t ih => exact fun ms _ => ih (process_fill ms f) (process_fill_inv ms f)

theorem combine_ok (c o : List PRecord) (h : c ≠ [] ∨ o ≠ []) :
    ∃ rs, combine_positions c o = Except.ok rs := by
  rcases c with _ | ⟨c0, ct⟩ <;> rcases o with _ | ⟨o0, ot⟩
  · simp at h
  · exact ⟨_, rfl⟩
  · exact ⟨_, rfl⟩
  · exact ⟨_, rfl⟩

theorem aggregate_ok_of_ne_nil {l : List Fill} (h : l ≠ []) :
    ∃ rs, aggregate_trades_to_positions l = Except.ok rs := by
  have hsn : sorted_fills l ≠ [] := by
    intro hc
    have hp := List.perm_insertionSort fillLE l
    rw [show List.insertionSort fillLE l = sorted_fills l from rfl, hc] at hp
    exact h hp.symm.eq_nil
  cases hS : sorted_fills l with
  | nil => exact absurd hS hsn
  | cons f t =>
    have hinv := fold_inv t (process_fill ([], []) f) (process_fill_inv ([], []) f)
    have heq : aggregate_trades_to_positions l =
        combine_positions ((t.foldl process_fill (process_fill ([], []) f)).2)
          (open_records ((t.foldl process_fill (process_fill ([], []) f)).1)) := by
      show combine_positions ((sorted_fills l).foldl process_fill ([], [])).2
          (open_records ((sorted_fills l).foldl process_fill ([], [])).1) = _
      rw [hS]
      rfl
    rw [heq]
    apply combine_ok
    rcases hinv with h1 | h1
    · exact Or.inl h1
    · right
      simp only [open_records, ne_eq, List.map_eq_nil_iff]
      exact h1

/-- C9 counterexample: a negative-price buy drives the live accumulator's
`entryNotional` to `-5 < 0`, yet the aggregator emits an ordinary OPEN
record (with negative `entryVwap`) and returns success — no
internal-consistency error is surfaced to the caller. -/
theorem negative_entry_emitted_without_error :
    (((sorted_fills [⟨"XRPUSDT", "BOTH", "BUY", 1, -5, 0, 0, 0, 1⟩]).foldl
        process_fill ([], [])).1.map (fun p => p.2.entryNotional)) = [-5] ∧
    ((-5 : ℚ) < 0) ∧
    (∃ rs, aggregate_trades_to_positions [⟨"XRPUSDT", "BOTH", "BUY", 1, -5, 0, 0, 0, 1⟩]
        = Except.ok rs) ∧
    (aggregate_trades_to_positions [⟨"XRPUSDT", "BOTH", "BUY", 1, -5, 0, 0, 0, 1⟩]).map
        (fun rs => rs.map (fun r => r.entryVwap)) = Except.ok [-5] :=
  ⟨rfl, by norm_num, ⟨_, rfl⟩, rfl⟩

/-- C9 amended: the engine has no negative-accumulator check at all.  An
emitted record's `entryQty` is an absolute value and hence never negative,
and a fold whose accumulator reaches a negative `entryNotional` still
completes successfully: every nonempty input produces `Except.ok`, never an
error. -/
theorem no_negative_guard_amended (l : List Fill) (hl : l ≠ []) :
    (∃ rs, aggregate_trades_to_positions l = Except.ok rs) ∧
    (∀ rs, aggregate_trades_to_positions l = Except.ok rs →
      ∀ r ∈ rs, 0 ≤ r.entryQty) := by
  refine ⟨aggregate_ok_of_ne_nil hl, ?_⟩
  intro rs h r hr
  rcases mem_aggregate_shape h hr with ⟨st, rfl⟩ | ⟨st, rfl⟩ | ⟨st, rfl⟩
  · exact abs_nonneg st.qtyOpened
  · exact abs_nonneg st.qtyOpened
  · exact abs_nonneg st.qtyOpened

/-- Witness for `no_negative_guard_amended` at the one-fill negative-price
input. -/
theorem no_negative_guard_amended_witness :
    (∃ rs, aggregate_trades_to_positions [⟨"XRPUSDT", "BOTH", "BUY", 1, -5, 0, 0, 0, 1⟩]
        = Except.ok rs) ∧
    (∀ rs, aggregate_trades_to_positions [⟨"XRPUSDT", "BOTH", "BUY", 1, -5, 0, 0, 0, 1⟩]
        = Except.ok rs → ∀ r ∈ rs, 0 ≤ r.entryQty) :=
  no_negative_guard_amended [⟨"XRPUSDT", "BOTH", "BUY", 1, -5, 0, 0, 0, 1⟩] (by simp)

/-- C6 (code bug in the source): `positions_df["status"] = "CLOSED"` at
line 194 runs only under `if not open_df.empty` (line 193).  On a plain
round-trip that leaves no open position, the flushed record — demonstrably
closed during the fold, its `closeTime` is set — reaches the output with no
`status` value at all, where the claim requires `status = CLOSED`. -/
theorem closed_status_missing_without_open :
    (aggregate_trades_to_positions
        [⟨"BTCUSDT", "BOTH", "BUY", 1, 100, 1, 0, 0, 1⟩,
         ⟨"BTCUSDT", "BOTH", "SELL", 1, 110, 1, 10, 60, 2⟩]).map
      (fun rs => rs.map (fun r => (r.status, r.closeTime)))
      = Except.ok [((none : Option String), some (60 : Int))] := rfl

/-- The three-fill input of the hedge-mode interference demonstration:
a LONG-mode round trip plus a SHORT-mode fill that stays open. -/
def c8_fills : List Fill :=
  [⟨"BTCUSDT", "LONG", "BUY", 1, 100, 0, 0, 1, 1⟩,
   ⟨"BTCUSDT", "LONG", "SELL", 1, 110, 0, 5, 2, 2⟩,
   ⟨"BTCUSDT", "SHORT", "SELL", 1, 100, 0, 0, 3, 3⟩]

/-- The same input with the `(BTCUSDT, SHORT)` fill removed. -/
def c8_fills_long_only : List Fill :=
  [⟨"BTCUSDT", "LONG", "BUY", 1, 100, 0, 0, 1, 1⟩,
   ⟨"BTCUSDT", "LONG", "SELL", 1, 110, 0, 5, 2, 2⟩]

/-- C8 (code bug in the source): the records produced for the key
`(BTCUSDT, LONG)` are *not* identical with and without the
`(BTCUSDT, SHORT)` fills: with the SHORT fill present an open record exists
at end of stream, so line 194 labels the closed LONG record
`status = CLOSED`; without it the `status` column is never created and the
same record carries no status.  (The accounting fields themselves are
unaffected; the divergence is the conditional `status` column of lines
193-195.) -/
theorem hedge_mode_records_differ_on_status :
    (aggregate_trades_to_positions c8_fills).map
        (fun rs => (rs.filter
            (fun r => r.symbol == "BTCUSDT" && r.positionSide == "LONG")).map
          (fun r => r.status)) = Except.ok [some "CLOSED"] ∧
    (aggregate_trades_to_positions c8_fills_long_only).map
        (fun rs => (rs.filter
            (fun r => r.symbol == "BTCUSDT" && r.positionSide == "LONG")).map
          (fun r => r.status)) = Except.ok [(none : Option String)] ∧
    some "CLOSED" ≠ (none : Option String) :=
  ⟨rfl, rfl, by simp⟩

/-! ### Permutation invariance of the aggregator -/

theorem sorted_fills_perm_eq {l l' : List Fill} (hp : List.Perm l l')
    (huniq : ∀ a ∈ l, ∀ b ∈ l, a.symbol = b.symbol → a.id = b.id → a = b) :
    sorted_fills l' = sorted_fills l := by
  have w : ∀ a b, a ∈ sorted_fills l' → b ∈ sorted_fills l →
      fillLE a b → fillLE b a → a = b := by
    intro a b ha hb hab hba
    have ha' : a ∈ l := hp.symm.subset ((List.mem_insertionSort fillLE).mp ha)
    have hb' : b ∈ l := (List.mem_insertionSort fillLE).mp hb
    have hk : sort_key a = sort_key b := le_antisymm hab hba
    simp only [sort_key, toLex_inj, Prod.mk.injEq] at hk
    exact huniq a ha' b hb'
      (congrArg String.mk hk.1) hk.2.2.2
  exact List.Perm.eq_of_sorted w
    (List.sorted_insertionSort fillLE l')
    (List.sorted_insertionSort fillLE l)
    ((List.perm_insertionSort fillLE l').trans
      (hp.symm.trans (List.perm_insertionSort fillLE l).symm))

/-- C7: when `id` is unique within each `symbol`, the normalized order of
line 61 is a pure function of the fill multiset, so the aggregator's output
is permutation-invariant (and re-running on the same collection trivially
reproduces the same output, the embedding being a function). -/
theorem aggregate_permutation_invariant (l l' : List Fill) (hp : List.Perm l l')
    (huniq : ∀ a ∈ l, ∀ b ∈ l, a.symbol = b.symbol → a.id = b.id → a = b) :
    aggregate_trades_to_positions l' = aggregate_trades_to_positions l := by
  have hs : sorted_fills l' = sorted_fills l := sorted_fills_perm_eq hp huniq
  unfold aggregate_trades_to_positions
  rw [hs]

/-- Witness for `aggregate_permutation_invariant`: the two-fill round trip
presented in both orders. -/
theorem aggregate_permutation_invariant_witness :
    aggregate_trades_to_positions
        [⟨"BTCUSDT", "BOTH", "SELL", 1, 110, 1, 10, 60, 2⟩,
         ⟨"BTCUSDT", "BOTH", "BUY", 1, 100, 1, 0, 0, 1⟩]
      = aggregate_trades_to_positions
        [⟨"BTCUSDT", "BOTH", "BUY", 1, 100, 1, 0, 0, 1⟩,
         ⟨"BTCUSDT", "BOTH", "SELL", 1, 110, 1, 10, 60, 2⟩] :=
  aggregate_permutation_invariant
    [⟨"BTCUSDT", "BOTH", "BUY", 1, 100, 1, 0, 0, 1⟩,
     ⟨"BTCUSDT", "BOTH", "SELL", 1, 110, 1, 10, 60, 2⟩]
    [⟨"BTCUSDT", "BOTH", "SELL", 1, 110, 1, 10, 60, 2⟩,
     ⟨"BTCUSDT", "BOTH", "BUY", 1, 100, 1, 0, 0, 1⟩]
    (List.Perm.swap (⟨"BTCUSDT", "BOTH", "SELL", 1, 110, 1, 10, 60, 2⟩ : Fill)
      (⟨"BTCUSDT", "BOTH", "BUY", 1, 100, 1, 0, 0, 1⟩ : Fill) [])
    (by decide)

end BinanceAgg
